import Mathlib

/-!
Verification of the Order & Supply-Chain Consistency Engine of the
supplier/consumer trading platform (`backend/app`).

The relational state is modelled as lists of rows (one list per table), and
each service method of `order_service.py`, `link_service.py`,
`product_service.py` and `connection_service.py` is translated into a pure
function over that state.  A method that raises `HTTPException` is modelled
as returning `Except ApiErr`; since the request-scoped session commits only
at the end of a successful service call, an error result carries no state
change (the caller keeps the pre-call state), which matches the
rollback-on-exception behaviour of `get_db`.

Numeric columns: `stock_quantity`, `min_order_qty` and item `quantity` are
SQLAlchemy `Integer` columns and are modelled as `Int` (Python ints are
signed and unbounded, so nonnegativity of stock is a real property, not a
typing artifact).  `Numeric(10,2)` money columns are modelled as integer
amounts in minor units; no claim below inspects monetary values.
-/

/-- `CompanyType` from `models/company.py`. -/
inductive CompanyType where
  | SUPPLIER
  | CONSUMER
deriving DecidableEq, Repr

/-- `LinkStatus` from `models/link.py`. -/
inductive LinkStatus where
  | PENDING
  | APPROVED
  | REJECTED
  | BLOCKED
deriving DecidableEq, Repr

/-- `OrderStatus` from `models/order.py`. -/
inductive OrderStatus where
  | PENDING
  | ACCEPTED
  | REJECTED
  | IN_DELIVERY
  | COMPLETED
  | CANCELLED
deriving DecidableEq, Repr

/-- `UserRole` from `models/user.py`. -/
inductive UserRole where
  | CONSUMER
  | SUPPLIER_OWNER
  | SUPPLIER_MANAGER
  | SUPPLIER_SALES
deriving DecidableEq, Repr

/-- A row of `companies` (`models/company.py`). -/
structure Company where
  id : Int
  type : CompanyType
  is_active : Bool
deriving DecidableEq, Repr

/-- A row of `products` (`models/product.py`). -/
structure Product where
  id : Int
  supplier_id : Int
  name : String
  sku : String
  price : Int
  stock_quantity : Int
  min_order_qty : Int
  is_active : Bool
deriving DecidableEq, Repr

/-- A row of `links` (`models/link.py`). -/
structure Link where
  id : Int
  supplier_id : Int
  consumer_id : Int
  status : LinkStatus
deriving DecidableEq, Repr

/-- A row of `users` (`models/user.py`); only the fields the engine reads. -/
structure User where
  id : Int
  role : UserRole
  company_id : Int
deriving DecidableEq, Repr

/-- A row of `orders` (`models/order.py`). -/
structure Order where
  id : Int
  consumer_id : Int
  supplier_id : Int
  status : OrderStatus
  total_amount : Int
deriving DecidableEq, Repr

/-- A row of `order_items` (`models/order.py`). -/
structure OrderItem where
  order_id : Int
  product_id : Int
  quantity : Int
  unit_price_at_time : Int
deriving DecidableEq, Repr

/-- A row of `company_blacklist` (`models/blacklist.py`). -/
structure BlacklistEntry where
  id : Int
  supplier_id : Int
  consumer_id : Int
  blocked_by : Int
  reason : String
deriving DecidableEq, Repr

/-- The relational state: one list of rows per table. -/
structure DB where
  companies : List Company
  products : List Product
  links : List Link
  orders : List Order
  order_items : List OrderItem
  blacklist : List BlacklistEntry
deriving DecidableEq, Repr

/-- `HTTPException` classified by status code, with its `detail` string.
`forbidden` is 403, `notFound` 404, `badRequest` 400, `internalError` 500,
`validationError` the 422 a pydantic schema rejection produces. -/
inductive ApiErr where
  | forbidden (detail : String)
  | notFound (detail : String)
  | badRequest (detail : String)
  | internalError (detail : String)
  | validationError (detail : String)
deriving DecidableEq, Repr

/-- `db.get(Company, i)`: first row with the primary key. -/
def DB.get_company (db : DB) (i : Int) : Option Company :=
  db.companies.find? (fun c => c.id == i)

/-- `db.get(Product, i)`. -/
def DB.get_product (db : DB) (i : Int) : Option Product :=
  db.products.find? (fun p => p.id == i)

/-- `db.get(Order, i)`. -/
def DB.get_order (db : DB) (i : Int) : Option Order :=
  db.orders.find? (fun o => o.id == i)

/-- `select(OrderItem).where(OrderItem.order_id == oid)`. -/
def DB.items_of (db : DB) (oid : Int) : List OrderItem :=
  db.order_items.filter (fun it => it.order_id == oid)

/-- Assigning `product.stock_quantity = v` on the row with id `pid`. -/
def DB.set_stock (db : DB) (pid : Int) (v : Int) : DB :=
  { db with products :=
      db.products.map (fun p => if p.id == pid then { p with stock_quantity := v } else p) }

/-- Assigning `order.status = st` on the row with id `oid`. -/
def DB.set_order_status (db : DB) (oid : Int) (st : OrderStatus) : DB :=
  { db with orders :=
      db.orders.map (fun o => if o.id == oid then { o with status := st } else o) }

/-- Autoincrement primary key assigned by `db.flush()` for a new order row. -/
def DB.next_order_id (db : DB) : Int :=
  (db.orders.map (fun o => o.id)).foldl max 0 + 1

/-- Autoincrement primary key for a new link row. -/
def DB.next_link_id (db : DB) : Int :=
  (db.links.map (fun l => l.id)).foldl max 0 + 1

/-- Autoincrement primary key for a new blacklist row. -/
def DB.next_blacklist_id (db : DB) : Int :=
  (db.blacklist.map (fun b => b.id)).foldl max 0 + 1

/-- Request schema `OrderItemCreate` (`schemas/order.py`). -/
structure OrderItemCreate where
  product_id : Int
  quantity : Int
deriving DecidableEq, Repr

/-- Request schema `OrderCreate` (`schemas/order.py`). -/
structure OrderCreate where
  supplier_id : Int
  items : List OrderItemCreate
deriving DecidableEq, Repr

/-- Request schema `LinkCreate` (`schemas/link.py`). -/
structure LinkCreate where
  supplier_id : Int
deriving DecidableEq, Repr

/-- Request schema `BlacklistCreate` (`schemas/blacklist.py`). -/
structure BlacklistCreate where
  consumer_id : Int
  reason : String
deriving DecidableEq, Repr

/-- The pydantic field constraints of `OrderCreate`: `items` has
`min_length=1` and every `OrderItemCreate.quantity` is `gt=0`.  FastAPI
rejects a request violating these before the service layer runs. -/
def OrderCreate.is_valid (r : OrderCreate) : Bool :=
  decide (1 ≤ r.items.length) && r.items.all (fun it => decide (0 < it.quantity))

/-- `LinkService.get_approved_supplier_ids`: supplier ids of links with this
consumer and status APPROVED. -/
def get_approved_supplier_ids (db : DB) (consumer_company_id : Int) : List Int :=
  (db.links.filter (fun l =>
      l.consumer_id == consumer_company_id && l.status == LinkStatus.APPROVED)).map
    (fun l => l.supplier_id)

/-- `LinkService.create_link_request`. -/
def create_link_request (db : DB) (consumer : User) (link_data : LinkCreate) :
    Except ApiErr (DB × Link) :=
  match db.get_company consumer.company_id with
  | none => .error (.forbidden "Only Consumer companies can request links")
  | some consumer_company =>
    if consumer_company.type ≠ CompanyType.CONSUMER then
      .error (.forbidden "Only Consumer companies can request links")
    else
      match db.get_company link_data.supplier_id with
      | none => .error (.notFound "Supplier company not found")
      | some supplier_company =>
        if supplier_company.type ≠ CompanyType.SUPPLIER then
          .error (.badRequest "Target company is not a Supplier")
        else
          match db.links.find? (fun l =>
              l.supplier_id == link_data.supplier_id &&
              l.consumer_id == consumer.company_id) with
          | some _ => .error (.badRequest "Link request already exists")
          | none =>
            let new_link : Link :=
              { id := db.next_link_id
                supplier_id := link_data.supplier_id
                consumer_id := consumer.company_id
                status := LinkStatus.PENDING }
            .ok ({ db with links := db.links ++ [new_link] }, new_link)

/-- `ProductService.get_catalog_for_consumer`.  The `supplier_id` filter is an
optional query parameter; Python tests it with `if supplier_id:`, so a 0
value is falsy and behaves like no filter. -/
def get_catalog_for_consumer (db : DB) (consumer : User) (supplier_id : Option Int) :
    Except ApiErr (List Product) :=
  let approved_supplier_ids := get_approved_supplier_ids db consumer.company_id
  if approved_supplier_ids.isEmpty then
    .ok []
  else
    let base := db.products.filter (fun p =>
      approved_supplier_ids.contains p.supplier_id && p.is_active &&
        decide (0 < p.stock_quantity))
    match supplier_id with
    | none => .ok base
    | some sid =>
      if sid == 0 then .ok base
      else if approved_supplier_ids.contains sid then
        .ok (base.filter (fun p => p.supplier_id == sid))
      else
        .error (.forbidden "You do not have an approved link with this supplier")

/-- Accumulator row of `order_items_data` inside `OrderService.create_order`. -/
structure OrderItemData where
  product_id : Int
  quantity : Int
  unit_price_at_time : Int
deriving DecidableEq, Repr

/-- The per-item validation loop of `OrderService.create_order`: checks each
item against its product (existence, ownership, active flag, minimum order
quantity, soft stock check) and accumulates the total amount and the item
rows to insert. -/
def validate_order_items (db : DB) (supplier_id : Int) :
    List OrderItemCreate → Except ApiErr (Int × List OrderItemData)
  | [] => .ok (0, [])
  | item :: rest =>
    match db.get_product item.product_id with
    | none => .error (.notFound ("Product " ++ toString item.product_id ++ " not found"))
    | some product =>
      if product.supplier_id ≠ supplier_id then
        .error (.badRequest ("Product " ++ toString item.product_id ++
          " does not belong to supplier " ++ toString supplier_id))
      else if product.is_active = false then
        .error (.badRequest ("Product " ++ product.name ++ " is not active"))
      else if item.quantity < product.min_order_qty then
        .error (.badRequest ("Product " ++ product.name ++
          " requires minimum order quantity of " ++ toString product.min_order_qty))
      else if product.stock_quantity < item.quantity then
        .error (.badRequest ("Insufficient stock for product " ++ product.name ++
          ". Available: " ++ toString product.stock_quantity))
      else
        match validate_order_items db supplier_id rest with
        | .error e => .error e
        | .ok (total_rest, data_rest) =>
          .ok (product.price * item.quantity + total_rest,
               { product_id := product.id
                 quantity := item.quantity
                 unit_price_at_time := product.price } :: data_rest)

/-- `OrderService.create_order`. -/
def create_order (db : DB) (consumer : User) (order_data : OrderCreate) :
    Except ApiErr (DB × Order) :=
  match db.get_company consumer.company_id with
  | none => .error (.forbidden "Only Consumer companies can create orders")
  | some consumer_company =>
    if consumer_company.type ≠ CompanyType.CONSUMER then
      .error (.forbidden "Only Consumer companies can create orders")
    else
      match db.get_company order_data.supplier_id with
      | none => .error (.badRequest "Invalid supplier")
      | some supplier_company =>
        if supplier_company.type ≠ CompanyType.SUPPLIER then
          .error (.badRequest "Invalid supplier")
        else
          match db.links.find? (fun l =>
              l.consumer_id == consumer.company_id &&
              l.supplier_id == order_data.supplier_id &&
              l.status == LinkStatus.APPROVED) with
          | none =>
            .error (.forbidden "You do not have an approved link with this supplier")
          | some _ =>
            match validate_order_items db order_data.supplier_id order_data.items with
            | .error e => .error e
            | .ok (total_amount, items_data) =>
              let oid := db.next_order_id
              let new_order : Order :=
                { id := oid
                  consumer_id := consumer.company_id
                  supplier_id := order_data.supplier_id
                  status := OrderStatus.PENDING
                  total_amount := total_amount }
              let new_items := items_data.map (fun d =>
                ({ order_id := oid
                   product_id := d.product_id
                   quantity := d.quantity
                   unit_price_at_time := d.unit_price_at_time } : OrderItem))
              .ok ({ db with
                       orders := db.orders ++ [new_order]
                       order_items := db.order_items ++ new_items },
                   new_order)

/-- The POST `/orders/` endpoint: pydantic validation of the request body,
then `OrderService.create_order`. -/
def create_order_endpoint (db : DB) (consumer : User) (order_data : OrderCreate) :
    Except ApiErr (DB × Order) :=
  if order_data.is_valid then create_order db consumer order_data
  else .error (.validationError "request body failed schema validation")

/-- The loop body of `OrderService._decrement_inventory` over the item list
loaded at entry: re-read each product, hard-check stock, assign the
decremented value. -/
def decrement_items (db : DB) : List OrderItem → Except ApiErr DB
  | [] => .ok db
  | item :: rest =>
    match db.get_product item.product_id with
    | none =>
      .error (.internalError ("Product " ++ toString item.product_id ++ " not found"))
    | some product =>
      if product.stock_quantity < item.quantity then
        .error (.badRequest ("Insufficient stock for product " ++ product.name ++
          ". Available: " ++ toString product.stock_quantity ++
          ", Required: " ++ toString item.quantity))
      else
        decrement_items (db.set_stock item.product_id (product.stock_quantity - item.quantity)) rest

/-- `OrderService._decrement_inventory`. -/
def decrement_inventory (db : DB) (order : Order) : Except ApiErr DB :=
  decrement_items db (db.items_of order.id)

/-- The loop body of `OrderService._restore_inventory`: a missing product is
silently skipped, an existing one has its stock incremented. -/
def restore_items (db : DB) : List OrderItem → DB
  | [] => db
  | item :: rest =>
    match db.get_product item.product_id with
    | none => restore_items db rest
    | some product =>
      restore_items (db.set_stock item.product_id (product.stock_quantity + item.quantity)) rest

/-- `OrderService._restore_inventory`. -/
def restore_inventory (db : DB) (order : Order) : DB :=
  restore_items db (db.items_of order.id)

/-- The effect part of `OrderService.update_order_status` after the
permission checks: conditional inventory decrement/restore, then the
unconditional status write, all committed as one unit. -/
def apply_order_transition (db : DB) (order : Order) (new_status : OrderStatus) :
    Except ApiErr (DB × Order) :=
  match (if new_status = OrderStatus.ACCEPTED ∧ order.status = OrderStatus.PENDING then
            decrement_inventory db order
          else .ok db) with
  | .error e => .error e
  | .ok db1 =>
    let db2 :=
      if (new_status = OrderStatus.CANCELLED ∨ new_status = OrderStatus.REJECTED) ∧
          order.status = OrderStatus.ACCEPTED then
        restore_inventory db1 order
      else db1
    let db3 := db2.set_order_status order.id new_status
    .ok (db3, { order with status := new_status })

/-- `OrderService.update_order_status`. -/
def update_order_status (db : DB) (order_id : Int) (user : User)
    (new_status : OrderStatus) : Except ApiErr (DB × Order) :=
  match db.get_order order_id with
  | none => .error (.notFound "Order not found")
  | some order =>
    if user.role = UserRole.CONSUMER then
      if user.company_id ≠ order.consumer_id then
        .error (.forbidden "Not your order")
      else if new_status ≠ OrderStatus.CANCELLED then
        .error (.forbidden "Consumers can only cancel orders")
      else if ¬ (order.status = OrderStatus.PENDING ∨ order.status = OrderStatus.ACCEPTED) then
        .error (.badRequest "Order cannot be cancelled in current state")
      else
        apply_order_transition db order new_status
    else if user.role = UserRole.SUPPLIER_OWNER ∨ user.role = UserRole.SUPPLIER_MANAGER ∨
        user.role = UserRole.SUPPLIER_SALES then
      if user.company_id ≠ order.supplier_id then
        .error (.forbidden "Not your order")
      else
        apply_order_transition db order new_status
    else
      .error (.forbidden "Insufficient permissions")

/-- `ConnectionManagementService.block_consumer`: insert the blacklist row,
force-reject the pair's open orders (no inventory restore), delete the
pair's links, as one committed unit. -/
def block_consumer (db : DB) (supplier_id : Int) (blacklist_data : BlacklistCreate)
    (blocker_user : User) : Except ApiErr (DB × BlacklistEntry) :=
  match db.get_company blacklist_data.consumer_id with
  | none => .error (.notFound "Consumer company not found")
  | some _ =>
    match db.blacklist.find? (fun b =>
        b.supplier_id == supplier_id && b.consumer_id == blacklist_data.consumer_id) with
    | some _ => .error (.badRequest "Consumer is already blacklisted")
    | none =>
      let entry : BlacklistEntry :=
        { id := db.next_blacklist_id
          supplier_id := supplier_id
          consumer_id := blacklist_data.consumer_id
          blocked_by := blocker_user.id
          reason := blacklist_data.reason }
      let orders1 := db.orders.map (fun o =>
        if o.supplier_id == supplier_id && o.consumer_id == blacklist_data.consumer_id &&
            (o.status == OrderStatus.PENDING || o.status == OrderStatus.ACCEPTED ||
             o.status == OrderStatus.IN_DELIVERY) then
          { o with status := OrderStatus.REJECTED }
        else o)
      let links1 := db.links.filter (fun l =>
        ! (l.supplier_id == supplier_id && l.consumer_id == blacklist_data.consumer_id))
      .ok ({ db with
               blacklist := db.blacklist ++ [entry]
               orders := orders1
               links := links1 },
           entry)

/-- The state the caller observes after a service call: the returned state on
success, the unchanged pre-call state on an exception (session rollback). -/
def commit_state {α : Type} (db : DB) (r : Except ApiErr (DB × α)) : DB :=
  match r with
  | .ok (d, _) => d
  | .error _ => db

/-- An operation of the Order & Inventory Engine write path. -/
inductive EngineOp where
  | create (consumer : User) (order_data : OrderCreate)
  | transition (order_id : Int) (user : User) (new_status : OrderStatus)
deriving Repr

/-- Run one engine operation against the state; a failed call leaves the
state unchanged. -/
def apply_engine_op (db : DB) : EngineOp → DB
  | .create c od => commit_state db (create_order_endpoint db c od)
  | .transition oid u st => commit_state db (update_order_status db oid u st)

/-- Run a sequence of engine operations. -/
def run_engine_ops (db : DB) (ops : List EngineOp) : DB :=
  ops.foldl apply_engine_op db

/-- Total quantity the items of a list carry against one product id. -/
def sum_qty (its : List OrderItem) (pid : Int) : Int :=
  ((its.filter (fun it => it.product_id == pid)).map (fun it => it.quantity)).sum

/-- The `InsufficientStock` failure of the acceptance hard-check. -/
def InsufficientStockErr (e : ApiErr) : Prop :=
  ∃ s, e = ApiErr.badRequest ("Insufficient stock for product " ++ s)

/-- The invariant of the engine: every stock is nonnegative and every stored
order item carries a positive quantity (the latter is enforced by the
pydantic `gt=0` bound on every insert path). -/
def GoodState (db : DB) : Prop :=
  (∀ p ∈ db.products, 0 ≤ p.stock_quantity) ∧ (∀ it ∈ db.order_items, 0 < it.quantity)

/-- Decidability of an existential over an option-valued lookup, so that
witness states can be checked by evaluation. -/
instance decidableOptionExistsAnd {α : Type} (o : Option α) (P : α → Prop)
    [DecidablePred P] : Decidable (∃ a, o = some a ∧ P a) :=
  match h : o with
  | some q =>
    if hq : P q then isTrue ⟨q, rfl, hq⟩
    else
      isFalse (by
        rintro ⟨a, ha, hPa⟩
        injection ha with he
        exact hq (he ▸ hPa))
  | none =>
    isFalse (by
      rintro ⟨a, ha, _⟩
      exact Option.noConfusion ha)

/-- Decidability of a universal over an option-valued lookup. -/
instance decidableOptionForall {α : Type} (o : Option α) (P : α → Prop)
    [DecidablePred P] : Decidable (∀ a, o = some a → P a) :=
  match h : o with
  | some q =>
    if hq : P q then
      isTrue (by
        intro a ha
        injection ha with he
        exact he ▸ hq)
    else isFalse (fun hall => hq (hall q rfl))
  | none => isTrue (fun a ha => Option.noConfusion ha)

/-- A supplier-side sample user of company 1. -/
def sample_supplier_user : User :=
  { id := 10, role := UserRole.SUPPLIER_OWNER, company_id := 1 }

/-- A consumer-side sample user of company 2. -/
def sample_consumer_user : User :=
  { id := 11, role := UserRole.CONSUMER, company_id := 2 }

/-- A sample supplier product with five units in stock. -/
def sample_product : Product :=
  { id := 1, supplier_id := 1, name := "Widget", sku := "W-1", price := 100,
    stock_quantity := 5, min_order_qty := 1, is_active := true }

/-- A sample pending order of company 2 against company 1. -/
def sample_order : Order :=
  { id := 1, consumer_id := 2, supplier_id := 1, status := OrderStatus.PENDING,
    total_amount := 300 }

/-- A sample state with a supplier, a consumer and no link between them. -/
def db_nolink : DB :=
  { companies := [{ id := 1, type := CompanyType.SUPPLIER, is_active := true },
                  { id := 2, type := CompanyType.CONSUMER, is_active := true }]
    products := [sample_product]
    links := []
    orders := []
    order_items := []
    blacklist := [] }

/-- A sample state with an approved link and a pending three-unit order. -/
def db_pending : DB :=
  { companies := [{ id := 1, type := CompanyType.SUPPLIER, is_active := true },
                  { id := 2, type := CompanyType.CONSUMER, is_active := true }]
    products := [sample_product]
    links := [{ id := 1, supplier_id := 1, consumer_id := 2, status := LinkStatus.APPROVED }]
    orders := [sample_order]
    order_items := [{ order_id := 1, product_id := 1, quantity := 3, unit_price_at_time := 100 }]
    blacklist := [] }

/-- A sample state whose only order is COMPLETED. -/
def db_completed : DB :=
  { companies := [{ id := 1, type := CompanyType.SUPPLIER, is_active := true },
                  { id := 2, type := CompanyType.CONSUMER, is_active := true }]
    products := [sample_product]
    links := []
    orders := [{ id := 1, consumer_id := 2, supplier_id := 1,
                 status := OrderStatus.COMPLETED, total_amount := 300 }]
    order_items := []
    blacklist := [] }

/-- A sample state with an ACCEPTED order one of whose items references a
product row that no longer exists (id 99). -/
def db_accepted_missing : DB :=
  { companies := [{ id := 1, type := CompanyType.SUPPLIER, is_active := true },
                  { id := 2, type := CompanyType.CONSUMER, is_active := true }]
    products := [sample_product]
    links := []
    orders := [{ id := 1, consumer_id := 2, supplier_id := 1,
                 status := OrderStatus.ACCEPTED, total_amount := 400 }]
    order_items := [{ order_id := 1, product_id := 1, quantity := 3, unit_price_at_time := 100 },
                    { order_id := 1, product_id := 99, quantity := 2, unit_price_at_time := 50 }]
    blacklist := [] }


/-- A row returned by primary-key lookup carries that key. -/
theorem get_product_id {db : DB} {pid : Int} {p : Product}
    (h : db.get_product pid = some p) : p.id = pid := by
  have h' : db.products.find? (fun q => q.id == pid) = some p := h
  simpa using List.find?_some h'

/-- A row returned by primary-key lookup is a row of the table. -/
theorem get_product_mem {db : DB} {pid : Int} {p : Product}
    (h : db.get_product pid = some p) : p ∈ db.products :=
  List.mem_of_find?_eq_some h

/-- A row returned by primary-key lookup carries that key. -/
theorem get_order_id {db : DB} {oid : Int} {o : Order}
    (h : db.get_order oid = some o) : o.id = oid := by
  have h' : db.orders.find? (fun q => q.id == oid) = some o := h
  simpa using List.find?_some h'

/-- Looking a product up after a stock write: the same row, with the stock
field overwritten when the keys agree. -/
theorem get_product_set_stock (db : DB) (i v j : Int) :
    (db.set_stock i v).get_product j =
      (db.get_product j).map
        (fun p => if p.id == i then { p with stock_quantity := v } else p) := by
  show (db.products.map _).find? _ = _
  rw [List.find?_map]
  have hc : ((fun p : Product => p.id == j) ∘
      fun p => if p.id == i then { p with stock_quantity := v } else p) =
      fun p : Product => p.id == j := by
    funext p
    by_cases hpi : p.id = i <;> simp [hpi]
  rw [hc]
  rfl

/-- Stock writes on one key leave lookups of other keys unchanged. -/
theorem get_product_set_stock_other (db : DB) (i v j : Int) (hne : j ≠ i) :
    (db.set_stock i v).get_product j = db.get_product j := by
  rw [get_product_set_stock]
  cases h : db.get_product j with
  | none => rfl
  | some p =>
    have hp := get_product_id h
    simp [hp, hne]

/-- Stock writes overwrite the looked-up row's stock field. -/
theorem get_product_set_stock_self (db : DB) (i v : Int) {p : Product}
    (h : db.get_product i = some p) :
    (db.set_stock i v).get_product i = some { p with stock_quantity := v } := by
  rw [get_product_set_stock, h]
  have hp := get_product_id h
  simp [hp]

/-- Looking an order up after a status write. -/
theorem get_order_set_order_status (db : DB) (oid : Int) (st : OrderStatus) (j : Int) :
    (db.set_order_status oid st).get_order j =
      (db.get_order j).map
        (fun o => if o.id == oid then { o with status := st } else o) := by
  show (db.orders.map _).find? _ = _
  rw [List.find?_map]
  have hc : ((fun o : Order => o.id == j) ∘
      fun o => if o.id == oid then { o with status := st } else o) =
      fun o : Order => o.id == j := by
    funext o
    by_cases hoi : o.id = oid <;> simp [hoi]
  rw [hc]
  rfl

/-- Product lookup only reads the `products` table. -/
theorem get_product_congr {db db' : DB} (h : db'.products = db.products) (pid : Int) :
    db'.get_product pid = db.get_product pid := by
  simp [DB.get_product, h]

/-- Order lookup only reads the `orders` table. -/
theorem get_order_congr {db db' : DB} (h : db'.orders = db.orders) (oid : Int) :
    db'.get_order oid = db.get_order oid := by
  simp [DB.get_order, h]

/-- Item loading only reads the `order_items` table. -/
theorem items_of_congr {db db' : DB} (h : db'.order_items = db.order_items) (oid : Int) :
    db'.items_of oid = db.items_of oid := by
  simp [DB.items_of, h]

/-- The quantity a cons decomposition contributes to one product. -/
theorem sum_qty_cons (it : OrderItem) (rest : List OrderItem) (pid : Int) :
    sum_qty (it :: rest) pid =
      (if it.product_id = pid then it.quantity else 0) + sum_qty rest pid := by
  by_cases h : it.product_id = pid <;>
    simp [sum_qty, List.filter_cons, h]

/-- A stock write touches only the `products` table. -/
theorem set_stock_companies (db : DB) (i v : Int) :
    (db.set_stock i v).companies = db.companies := rfl

theorem set_stock_links (db : DB) (i v : Int) :
    (db.set_stock i v).links = db.links := rfl

theorem set_stock_orders (db : DB) (i v : Int) :
    (db.set_stock i v).orders = db.orders := rfl

theorem set_stock_order_items (db : DB) (i v : Int) :
    (db.set_stock i v).order_items = db.order_items := rfl

theorem set_stock_blacklist (db : DB) (i v : Int) :
    (db.set_stock i v).blacklist = db.blacklist := rfl

/-- A status write touches only the `orders` table. -/
theorem set_order_status_products (db : DB) (oid : Int) (st : OrderStatus) :
    (db.set_order_status oid st).products = db.products := rfl

theorem set_order_status_order_items (db : DB) (oid : Int) (st : OrderStatus) :
    (db.set_order_status oid st).order_items = db.order_items := rfl

/-- The decrement loop writes only the `products` table. -/
theorem decrement_items_fields (its : List OrderItem) :
    ∀ {db db' : DB}, decrement_items db its = .ok db' →
      db'.companies = db.companies ∧ db'.links = db.links ∧ db'.orders = db.orders ∧
      db'.order_items = db.order_items ∧ db'.blacklist = db.blacklist := by
  induction its with
  | nil =>
    intro db db' h
    cases h
    exact ⟨rfl, rfl, rfl, rfl, rfl⟩
  | cons it rest ih =>
    intro db db' h
    cases hg : db.get_product it.product_id with
    | none =>
      simp only [decrement_items, hg] at h
      exact Except.noConfusion h
    | some q =>
      simp only [decrement_items, hg] at h
      by_cases hlt : q.stock_quantity < it.quantity
      · rw [if_pos hlt] at h
        exact Except.noConfusion h
      · rw [if_neg hlt] at h
        have hf := ih h
        exact hf

/-- The restore loop writes only the `products` table. -/
theorem restore_items_fields (its : List OrderItem) : ∀ db : DB,
    (restore_items db its).companies = db.companies ∧
    (restore_items db its).links = db.links ∧
    (restore_items db its).orders = db.orders ∧
    (restore_items db its).order_items = db.order_items ∧
    (restore_items db its).blacklist = db.blacklist := by
  induction its with
  | nil => intro db; exact ⟨rfl, rfl, rfl, rfl, rfl⟩
  | cons it rest ih =>
    intro db
    cases hg : db.get_product it.product_id with
    | none =>
      simp only [restore_items, hg]
      exact ih db
    | some q =>
      simp only [restore_items, hg]
      exact ih _

/-- Stock accounting of a successful decrement loop: every product row ends
with its stock reduced by the total quantity the items carry against it (a
row with no item keeps its stock, an absent row stays absent). -/
theorem decrement_items_stock (its : List OrderItem) :
    ∀ {db db' : DB}, decrement_items db its = .ok db' → ∀ pid : Int,
      db'.get_product pid =
        (db.get_product pid).map
          (fun p => { p with stock_quantity := p.stock_quantity - sum_qty its pid }) := by
  induction its with
  | nil =>
    intro db db' h pid
    cases h
    cases hg : db.get_product pid <;> simp [sum_qty, hg]
  | cons it rest ih =>
    intro db db' h pid
    cases hg : db.get_product it.product_id with
    | none =>
      simp only [decrement_items, hg] at h
      exact Except.noConfusion h
    | some q =>
      simp only [decrement_items, hg] at h
      by_cases hlt : q.stock_quantity < it.quantity
      · rw [if_pos hlt] at h
        exact Except.noConfusion h
      · rw [if_neg hlt] at h
        have hqid := get_product_id hg
        have hrec := ih h
        rw [hrec pid, get_product_set_stock, sum_qty_cons]
        cases hg2 : db.get_product pid with
        | none => simp
        | some r =>
          have hrid := get_product_id hg2
          by_cases hp : it.product_id = pid
          · subst hp
            rw [hg] at hg2
            injection hg2 with hqr
            subst hqr
            simp [hqid, Product.mk.injEq]
            omega
          · have hif : ¬ (r.id = it.product_id) := by omega
            simp [hif, hp, Product.mk.injEq]

/-- Stock accounting of the restore loop: every surviving product row ends
with its stock increased by the total quantity the items carry against it;
an absent row stays absent (the loop skips it silently). -/
theorem restore_items_stock (its : List OrderItem) :
    ∀ (db : DB) (pid : Int),
      (restore_items db its).get_product pid =
        (db.get_product pid).map
          (fun p => { p with stock_quantity := p.stock_quantity + sum_qty its pid }) := by
  induction its with
  | nil =>
    intro db pid
    cases hg : db.get_product pid <;> simp [restore_items, sum_qty, hg]
  | cons it rest ih =>
    intro db pid
    cases hg : db.get_product it.product_id with
    | none =>
      simp only [restore_items, hg]
      rw [ih db pid, sum_qty_cons]
      cases hg2 : db.get_product pid with
      | none => simp
      | some r =>
        by_cases hp : it.product_id = pid
        · subst hp
          rw [hg] at hg2
          exact Option.noConfusion hg2
        · simp [hp]
    | some q =>
      simp only [restore_items, hg]
      have hqid := get_product_id hg
      rw [ih _ pid, get_product_set_stock, sum_qty_cons]
      cases hg2 : db.get_product pid with
      | none => simp
      | some r =>
        have hrid := get_product_id hg2
        by_cases hp : it.product_id = pid
        · subst hp
          rw [hg] at hg2
          injection hg2 with hqr
          subst hqr
          simp [hqid, Product.mk.injEq]
          omega
        · have hif : ¬ (r.id = it.product_id) := by omega
          simp [hif, hp, Product.mk.injEq]

/-- A stock write never changes which product keys are present. -/
theorem get_product_isSome_set_stock (db : DB) (i v j : Int) :
    ((db.set_stock i v).get_product j).isSome = (db.get_product j).isSome := by
  rw [get_product_set_stock]
  cases db.get_product j <;> simp

/-- Every row after a stock write is an original row, possibly with its
stock field overwritten. -/
theorem mem_set_stock_products {db : DB} {i v : Int} {p' : Product}
    (h : p' ∈ (db.set_stock i v).products) :
    p' ∈ db.products ∨ ∃ p ∈ db.products, p' = { p with stock_quantity := v } := by
  simp only [DB.set_stock, List.mem_map] at h
  obtain ⟨p, hp, he⟩ := h
  by_cases hpi : p.id = i
  · right
    refine ⟨p, hp, ?_⟩
    rw [← he]
    simp [hpi]
  · left
    rw [← he]
    simp [hpi]
    exact hp

/-- When every item's product row exists, the only failure the decrement
loop can produce is the insufficient-stock one. -/
theorem decrement_items_error_shape (its : List OrderItem) :
    ∀ {db : DB} {e : ApiErr},
      (∀ it ∈ its, (db.get_product it.product_id).isSome = true) →
      decrement_items db its = .error e → InsufficientStockErr e := by
  induction its with
  | nil =>
    intro db e _ h
    exact Except.noConfusion h
  | cons it rest ih =>
    intro db e hall h
    cases hg : db.get_product it.product_id with
    | none =>
      have hs := hall it (by simp)
      rw [hg] at hs
      simp at hs
    | some q =>
      simp only [decrement_items, hg] at h
      by_cases hlt : q.stock_quantity < it.quantity
      · rw [if_pos hlt] at h
        injection h with he
        refine ⟨q.name ++ (". Available: " ++ (toString q.stock_quantity ++
          (", Required: " ++ toString it.quantity))), ?_⟩
        rw [← he]
        simp [String.append_assoc]
      · rw [if_neg hlt] at h
        refine ih ?_ h
        intro it2 hit2
        rw [get_product_isSome_set_stock]
        exact hall it2 (by simp [hit2])

/-- Sufficiency of the hard-check: when the items name pairwise distinct
products and each product has enough stock, the decrement loop succeeds. -/
theorem decrement_items_ok_sufficient (its : List OrderItem) :
    ∀ {db : DB},
      its.Pairwise (fun a b => a.product_id ≠ b.product_id) →
      (∀ it ∈ its, ∃ p, db.get_product it.product_id = some p ∧
        it.quantity ≤ p.stock_quantity) →
      ∃ db', decrement_items db its = .ok db' := by
  induction its with
  | nil =>
    intro db _ _
    exact ⟨db, rfl⟩
  | cons it rest ih =>
    intro db hpw hall
    obtain ⟨q, hg, hle⟩ := hall it (by simp)
    have hlt : ¬ q.stock_quantity < it.quantity := by omega
    have hpw' := (List.pairwise_cons.mp hpw)
    obtain ⟨db', hdb'⟩ := ih hpw'.2 (fun it2 hit2 => by
      obtain ⟨p2, hg2, hle2⟩ := hall it2 (by simp [hit2])
      refine ⟨p2, ?_, hle2⟩
      rw [get_product_set_stock_other]
      · exact hg2
      · exact fun hh => (hpw'.1 it2 hit2) hh.symm)
    refine ⟨db', ?_⟩
    simp only [decrement_items, hg, if_neg hlt]
    exact hdb'

/-- Necessity of the hard-check: a successful decrement loop implies every
item was within its product's pre-loop stock. -/
theorem decrement_items_ok_necessary (its : List OrderItem) :
    ∀ {db db' : DB},
      decrement_items db its = .ok db' →
      its.Pairwise (fun a b => a.product_id ≠ b.product_id) →
      ∀ it ∈ its, ∃ p, db.get_product it.product_id = some p ∧
        it.quantity ≤ p.stock_quantity := by
  induction its with
  | nil =>
    intro db db' _ _ it hit
    exact absurd hit (by simp)
  | cons it rest ih =>
    intro db db' h hpw it2 hit2
    cases hg : db.get_product it.product_id with
    | none =>
      simp only [decrement_items, hg] at h
      exact Except.noConfusion h
    | some q =>
      simp only [decrement_items, hg] at h
      by_cases hlt : q.stock_quantity < it.quantity
      · rw [if_pos hlt] at h
        exact Except.noConfusion h
      · rw [if_neg hlt] at h
        have hpw' := (List.pairwise_cons.mp hpw)
        rcases List.mem_cons.mp hit2 with hh | hh
        · subst hh
          exact ⟨q, hg, by omega⟩
        · obtain ⟨p2, hg2, hle2⟩ := ih h hpw'.2 it2 hh
          refine ⟨p2, ?_, hle2⟩
          rw [get_product_set_stock_other] at hg2
          · exact hg2
          · exact fun h3 => (hpw'.1 it2 hh) h3.symm

/-- A successful decrement loop keeps every stock nonnegative: the value it
writes is checked to be nonnegative row by row. -/
theorem decrement_items_nonneg (its : List OrderItem) :
    ∀ {db db' : DB},
      decrement_items db its = .ok db' →
      (∀ p ∈ db.products, 0 ≤ p.stock_quantity) →
      ∀ p ∈ db'.products, 0 ≤ p.stock_quantity := by
  induction its with
  | nil =>
    intro db db' h hnn
    cases h
    exact hnn
  | cons it rest ih =>
    intro db db' h hnn
    cases hg : db.get_product it.product_id with
    | none =>
      simp only [decrement_items, hg] at h
      exact Except.noConfusion h
    | some q =>
      simp only [decrement_items, hg] at h
      by_cases hlt : q.stock_quantity < it.quantity
      · rw [if_pos hlt] at h
        exact Except.noConfusion h
      · rw [if_neg hlt] at h
        refine ih h ?_
        intro p hp
        rcases mem_set_stock_products hp with hmem | ⟨p0, _, he⟩
        · exact hnn p hmem
        · subst he
          simp only
          omega

/-- The restore loop keeps every stock nonnegative when the item quantities
are nonnegative. -/
theorem restore_items_nonneg (its : List OrderItem) :
    ∀ db : DB,
      (∀ it ∈ its, 0 ≤ it.quantity) →
      (∀ p ∈ db.products, 0 ≤ p.stock_quantity) →
      ∀ p ∈ (restore_items db its).products, 0 ≤ p.stock_quantity := by
  induction its with
  | nil =>
    intro db _ hnn
    exact hnn
  | cons it rest ih =>
    intro db hq hnn
    cases hg : db.get_product it.product_id with
    | none =>
      simp only [restore_items, hg]
      exact ih db (fun it2 h2 => hq it2 (by simp [h2])) hnn
    | some q =>
      simp only [restore_items, hg]
      refine ih _ (fun it2 h2 => hq it2 (by simp [h2])) ?_
      intro p hp
      rcases mem_set_stock_products hp with hmem | ⟨p0, _, he⟩
      · exact hnn p hmem
      · subst he
        simp only
        have hq0 : 0 ≤ q.stock_quantity := hnn q (get_product_mem hg)
        have hqi : 0 ≤ it.quantity := hq it (by simp)
        omega

/-- For a supplier-side user acting on their own order, the permission gate
of `update_order_status` passes and the call reduces to the transition
effects; no state-machine check stands between them. -/
theorem update_order_status_supplier {db : DB} {oid : Int} {user : User}
    {new_status : OrderStatus} {order : Order}
    (horder : db.get_order oid = some order)
    (hrole : user.role = UserRole.SUPPLIER_OWNER ∨ user.role = UserRole.SUPPLIER_MANAGER ∨
      user.role = UserRole.SUPPLIER_SALES)
    (hcomp : user.company_id = order.supplier_id) :
    update_order_status db oid user new_status = apply_order_transition db order new_status := by
  have hnc : ¬ user.role = UserRole.CONSUMER := by
    rcases hrole with h | h | h <;> simp [h]
  have hco : ¬ user.company_id ≠ order.supplier_id := by simp [hcomp]
  simp only [update_order_status, horder]
  rw [if_neg hnc, if_pos hrole, if_neg hco]

/-- Every successful `update_order_status` call factors through the
transition effects on the order row it loaded. -/
theorem update_order_status_ok_inv {db : DB} {oid : Int} {u : User} {st : OrderStatus}
    {r : DB × Order} (h : update_order_status db oid u st = .ok r) :
    ∃ order, db.get_order oid = some order ∧ apply_order_transition db order st = .ok r := by
  cases hg : db.get_order oid with
  | none =>
    simp only [update_order_status, hg] at h
    exact Except.noConfusion h
  | some order =>
    refine ⟨order, rfl, ?_⟩
    simp only [update_order_status, hg] at h
    by_cases h1 : u.role = UserRole.CONSUMER
    · rw [if_pos h1] at h
      by_cases h2 : u.company_id ≠ order.consumer_id
      · rw [if_pos h2] at h
        exact Except.noConfusion h
      · rw [if_neg h2] at h
        by_cases h3 : st ≠ OrderStatus.CANCELLED
        · rw [if_pos h3] at h
          exact Except.noConfusion h
        · rw [if_neg h3] at h
          by_cases h4 : ¬ (order.status = OrderStatus.PENDING ∨ order.status = OrderStatus.ACCEPTED)
          · rw [if_pos h4] at h
            exact Except.noConfusion h
          · rw [if_neg h4] at h
            exact h
    · rw [if_neg h1] at h
      by_cases h5 : u.role = UserRole.SUPPLIER_OWNER ∨ u.role = UserRole.SUPPLIER_MANAGER ∨
          u.role = UserRole.SUPPLIER_SALES
      · rw [if_pos h5] at h
        by_cases h6 : u.company_id ≠ order.supplier_id
        · rw [if_pos h6] at h
          exact Except.noConfusion h
        · rw [if_neg h6] at h
          exact h
      · rw [if_neg h5] at h
        exact Except.noConfusion h

/-- The transition effects preserve nonnegative stock and do not touch the
`order_items` table. -/
theorem apply_order_transition_good {db : DB} {order : Order} {st : OrderStatus}
    {r : DB × Order} (h : apply_order_transition db order st = .ok r)
    (hnn : ∀ p ∈ db.products, 0 ≤ p.stock_quantity)
    (hq : ∀ it ∈ db.order_items, 0 < it.quantity) :
    (∀ p ∈ r.1.products, 0 ≤ p.stock_quantity) ∧ r.1.order_items = db.order_items := by
  unfold apply_order_transition at h
  cases hdec : (if st = OrderStatus.ACCEPTED ∧ order.status = OrderStatus.PENDING then
      decrement_inventory db order else .ok db) with
  | error e =>
    rw [hdec] at h
    exact Except.noConfusion h
  | ok db1 =>
    rw [hdec] at h
    have hdb1 : (∀ p ∈ db1.products, 0 ≤ p.stock_quantity) ∧ db1.order_items = db.order_items := by
      by_cases hc : st = OrderStatus.ACCEPTED ∧ order.status = OrderStatus.PENDING
      · rw [if_pos hc] at hdec
        exact ⟨decrement_items_nonneg _ hdec hnn, (decrement_items_fields _ hdec).2.2.2.1⟩
      · rw [if_neg hc] at hdec
        injection hdec with h1
        subst h1
        exact ⟨hnn, rfl⟩
    injection h with hr
    have hdb2 : ∀ db2 : DB,
        db2 = (if (st = OrderStatus.CANCELLED ∨ st = OrderStatus.REJECTED) ∧
            order.status = OrderStatus.ACCEPTED then restore_inventory db1 order else db1) →
        (∀ p ∈ db2.products, 0 ≤ p.stock_quantity) ∧ db2.order_items = db.order_items := by
      intro db2 hdef
      by_cases hc2 : (st = OrderStatus.CANCELLED ∨ st = OrderStatus.REJECTED) ∧
          order.status = OrderStatus.ACCEPTED
      · rw [if_pos hc2] at hdef
        subst hdef
        constructor
        · refine restore_items_nonneg _ _ ?_ hdb1.1
          intro it hit
          have hmem : it ∈ db1.order_items := (List.mem_filter.mp hit).1
          rw [hdb1.2] at hmem
          exact le_of_lt (hq it hmem)
        · show (restore_items db1 (db1.items_of order.id)).order_items = db.order_items
          have hf := (restore_items_fields (db1.items_of order.id) db1).2.2.2.1
          rw [hf, hdb1.2]
      · rw [if_neg hc2] at hdef
        subst hdef
        exact hdb1
    have hmain := hdb2 _ rfl
    rw [← hr]
    exact ⟨hmain.1, hmain.2⟩

/-- Every item row the creation loop accumulates takes its quantity from
one of the requested items. -/
theorem validate_order_items_quantities (items : List OrderItemCreate) :
    ∀ {db : DB} {sid : Int} {total : Int} {datas : List OrderItemData},
      validate_order_items db sid items = .ok (total, datas) →
      ∀ d ∈ datas, ∃ s ∈ items, d.quantity = s.quantity := by
  induction items with
  | nil =>
    intro db sid total datas h d hd
    cases h
    exact absurd hd (by simp)
  | cons item rest ih =>
    intro db sid total datas h d hd
    cases hg : db.get_product item.product_id with
    | none =>
      simp only [validate_order_items, hg] at h
      exact Except.noConfusion h
    | some product =>
      simp only [validate_order_items, hg] at h
      by_cases c1 : product.supplier_id ≠ sid
      · rw [if_pos c1] at h
        exact Except.noConfusion h
      · rw [if_neg c1] at h
        by_cases c2 : product.is_active = false
        · rw [if_pos c2] at h
          exact Except.noConfusion h
        · rw [if_neg c2] at h
          by_cases c3 : item.quantity < product.min_order_qty
          · rw [if_pos c3] at h
            exact Except.noConfusion h
          · rw [if_neg c3] at h
            by_cases c4 : product.stock_quantity < item.quantity
            · rw [if_pos c4] at h
              exact Except.noConfusion h
            · rw [if_neg c4] at h
              cases hrec : validate_order_items db sid rest with
              | error e =>
                rw [hrec] at h
                exact Except.noConfusion h
              | ok pr =>
                rw [hrec] at h
                injection h with hpair
                injection hpair with htot hdatas
                rw [← hdatas] at hd
                rcases List.mem_cons.mp hd with hh | hh
                · subst hh
                  exact ⟨item, by simp, rfl⟩
                · obtain ⟨s, hs, hq⟩ := ih (by rw [hrec]) d hh
                  exact ⟨s, by simp [hs], hq⟩

/-- A successful order creation leaves the `products` table untouched and
adds only item rows whose quantities come from the request. -/
theorem create_order_ok_products {db : DB} {c : User} {od : OrderCreate} {r : DB × Order}
    (h : create_order db c od = .ok r) :
    r.1.products = db.products ∧
    ∀ it ∈ r.1.order_items, it ∈ db.order_items ∨ ∃ s ∈ od.items, it.quantity = s.quantity := by
  cases hc1 : db.get_company c.company_id with
  | none =>
    simp only [create_order, hc1] at h
    exact Except.noConfusion h
  | some cc =>
    simp only [create_order, hc1] at h
    by_cases ht1 : cc.type ≠ CompanyType.CONSUMER
    · rw [if_pos ht1] at h
      exact Except.noConfusion h
    · rw [if_neg ht1] at h
      cases hc2 : db.get_company od.supplier_id with
      | none =>
        simp only [hc2] at h
        exact Except.noConfusion h
      | some sc =>
        simp only [hc2] at h
        by_cases ht2 : sc.type ≠ CompanyType.SUPPLIER
        · rw [if_pos ht2] at h
          exact Except.noConfusion h
        · rw [if_neg ht2] at h
          cases hl : db.links.find? (fun l =>
              l.consumer_id == c.company_id && l.supplier_id == od.supplier_id &&
              l.status == LinkStatus.APPROVED) with
          | none =>
            rw [hl] at h
            exact Except.noConfusion h
          | some link =>
            simp only [hl] at h
            cases hv : validate_order_items db od.supplier_id od.items with
            | error e =>
              simp only [hv] at h
              exact Except.noConfusion h
            | ok pr =>
              simp only [hv] at h
              injection h with hr
              rw [← hr]
              refine ⟨rfl, ?_⟩
              intro it hit
              rcases List.mem_append.mp hit with hh | hh
              · exact Or.inl hh
              · right
                simp only [List.mem_map] at hh
                obtain ⟨d, hd, he⟩ := hh
                obtain ⟨s, hs, hq⟩ := validate_order_items_quantities od.items
                  (by rw [hv]) d hd
                refine ⟨s, hs, ?_⟩
                rw [← he]
                exact hq

/-- The order-creation endpoint preserves the engine invariant. -/
theorem create_order_endpoint_good {db : DB} {c : User} {od : OrderCreate}
    (hgood : GoodState db) : GoodState (commit_state db (create_order_endpoint db c od)) := by
  unfold create_order_endpoint
  by_cases hval : od.is_valid = true
  · rw [if_pos hval]
    cases hres : create_order db c od with
    | error e => exact hgood
    | ok r =>
      obtain ⟨d, o⟩ := r
      have hco := create_order_ok_products hres
      constructor
      · intro p hp
        have hp' : p ∈ d.products := hp
        rw [hco.1] at hp'
        exact hgood.1 p hp'
      · intro it hit
        have hit' : it ∈ d.order_items := hit
        rcases hco.2 it hit' with hh | ⟨s, hs, hq⟩
        · exact hgood.2 it hh
        · rw [hq]
          have hv2 := hval
          simp only [OrderCreate.is_valid, Bool.and_eq_true, List.all_eq_true,
            decide_eq_true_eq] at hv2
          exact hv2.2 s hs
  · rw [if_neg hval]
    exact hgood

/-- The status-transition endpoint preserves the engine invariant. -/
theorem update_order_status_good {db : DB} {oid : Int} {u : User} {st : OrderStatus}
    (hgood : GoodState db) : GoodState (commit_state db (update_order_status db oid u st)) := by
  cases hres : update_order_status db oid u st with
  | error e => exact hgood
  | ok r =>
    obtain ⟨d, o⟩ := r
    obtain ⟨order, _, happ⟩ := update_order_status_ok_inv hres
    have hg := apply_order_transition_good happ hgood.1 hgood.2
    refine ⟨hg.1, ?_⟩
    show ∀ it ∈ d.order_items, 0 < it.quantity
    rw [hg.2]
    exact hgood.2

/-- Any sequence of engine operations preserves the engine invariant. -/
theorem run_engine_ops_good (ops : List EngineOp) :
    ∀ db : DB, GoodState db → GoodState (run_engine_ops db ops) := by
  induction ops with
  | nil => intro db h; exact h
  | cons op rest ih =>
    intro db h
    show GoodState (run_engine_ops (apply_engine_op db op) rest)
    refine ih _ ?_
    cases op with
    | create c od => exact create_order_endpoint_good h
    | transition oid u st => exact update_order_status_good h

/-- Claim C1: for every consumer user (company of type CONSUMER) and every
order-creation request naming an existing supplier-typed company,
`create_order` fails with the Forbidden (403) link error whenever no
APPROVED link row exists for the exact (supplier_id, consumer company)
pair, and in that case no Order and no OrderItem row is created. -/
theorem claim_C1_order_requires_approved_link (db : DB) (consumer : User)
    (order_data : OrderCreate) (cc sc : Company)
    (hcc : db.get_company consumer.company_id = some cc)
    (hccty : cc.type = CompanyType.CONSUMER)
    (hsc : db.get_company order_data.supplier_id = some sc)
    (hscty : sc.type = CompanyType.SUPPLIER)
    (hnolink : ∀ l ∈ db.links, ¬ (l.supplier_id = order_data.supplier_id ∧
      l.consumer_id = consumer.company_id ∧ l.status = LinkStatus.APPROVED)) :
    create_order db consumer order_data =
      .error (.forbidden "You do not have an approved link with this supplier") ∧
    (commit_state db (create_order db consumer order_data)).orders = db.orders ∧
    (commit_state db (create_order db consumer order_data)).order_items = db.order_items := by
  have hfind : db.links.find? (fun l =>
      l.consumer_id == consumer.company_id && l.supplier_id == order_data.supplier_id &&
      l.status == LinkStatus.APPROVED) = none := by
    rw [List.find?_eq_none]
    intro l hl
    have hn := hnolink l hl
    simp only [Bool.and_eq_true, beq_iff_eq, not_and]
    intro h1 h2
    exact hn ⟨h1.2, h1.1, h2⟩
  have hmain : create_order db consumer order_data =
      .error (.forbidden "You do not have an approved link with this supplier") := by
    simp only [create_order, hcc, hsc, hfind]
    rw [if_neg (by simp [hccty]), if_neg (by simp [hscty])]
  refine ⟨hmain, ?_, ?_⟩ <;> (rw [hmain]; rfl)

/-- Witness for C1 at a concrete state with no link row at all. -/
theorem claim_C1_witness :
    create_order db_nolink sample_consumer_user
        { supplier_id := 1, items := [{ product_id := 1, quantity := 1 }] } =
      .error (.forbidden "You do not have an approved link with this supplier") :=
  (claim_C1_order_requires_approved_link db_nolink sample_consumer_user
    { supplier_id := 1, items := [{ product_id := 1, quantity := 1 }] }
    { id := 2, type := CompanyType.CONSUMER, is_active := true }
    { id := 1, type := CompanyType.SUPPLIER, is_active := true }
    (by decide) (by decide) (by decide) (by decide) (by decide)).1

/-- Claim C2: for a PENDING order and a supplier-side actor of the order's
company, the ACCEPTED request re-reads each item's current product stock.
If some item exceeds its product's current stock the whole call fails with
the InsufficientStock error and the committed state is exactly the pre-call
state (order still PENDING, no stock changed).  Otherwise the call succeeds
and every involved product's stock is decremented by the total item
quantity against it, in one committed state, while untouched products keep
their stock (the `Option.map` identity on the lookup).  The items are
assumed to name pairwise distinct products (the composite primary key of
`order_items`) and existing product rows. -/
theorem claim_C2_acceptance_hard_check (db : DB) (oid : Int) (user : User) (order : Order)
    (horder : db.get_order oid = some order)
    (hst : order.status = OrderStatus.PENDING)
    (hrole : user.role = UserRole.SUPPLIER_OWNER ∨ user.role = UserRole.SUPPLIER_MANAGER ∨
      user.role = UserRole.SUPPLIER_SALES)
    (hcomp : user.company_id = order.supplier_id)
    (hex : ∀ it ∈ db.items_of oid, (db.get_product it.product_id).isSome = true)
    (hnodup : (db.items_of oid).Pairwise (fun a b => a.product_id ≠ b.product_id)) :
    ((∃ it ∈ db.items_of oid, ∃ p, db.get_product it.product_id = some p ∧
        p.stock_quantity < it.quantity) →
      ∃ e, update_order_status db oid user OrderStatus.ACCEPTED = .error e ∧
        InsufficientStockErr e ∧
        commit_state db (update_order_status db oid user OrderStatus.ACCEPTED) = db) ∧
    ((∀ it ∈ db.items_of oid, ∃ p, db.get_product it.product_id = some p ∧
        it.quantity ≤ p.stock_quantity) →
      ∃ db1, update_order_status db oid user OrderStatus.ACCEPTED =
          .ok (db1, { order with status := OrderStatus.ACCEPTED }) ∧
        (∀ pid, db1.get_product pid = (db.get_product pid).map
          (fun p => { p with stock_quantity := p.stock_quantity - sum_qty (db.items_of oid) pid })) ∧
        db1.get_order oid = some { order with status := OrderStatus.ACCEPTED }) := by
  have hoid : order.id = oid := get_order_id horder
  have hupd := @update_order_status_supplier db oid user OrderStatus.ACCEPTED order
    horder hrole hcomp
  have hitems : decrement_inventory db order = decrement_items db (db.items_of oid) := by
    unfold decrement_inventory
    rw [hoid]
  constructor
  · rintro ⟨it, hit, p, hp, hlt⟩
    cases hres : decrement_items db (db.items_of oid) with
    | ok dbd =>
      exfalso
      obtain ⟨p', hp', hle⟩ := decrement_items_ok_necessary _ hres hnodup it hit
      rw [hp] at hp'
      injection hp' with he
      rw [← he] at hle
      omega
    | error e =>
      have herr : update_order_status db oid user OrderStatus.ACCEPTED = .error e := by
        rw [hupd]
        unfold apply_order_transition
        rw [if_pos ⟨rfl, hst⟩, hitems, hres]
      refine ⟨e, herr, decrement_items_error_shape _ hex hres, ?_⟩
      rw [herr]
      rfl
  · intro hall
    obtain ⟨dbd, hdec⟩ := decrement_items_ok_sufficient _ hnodup hall
    have hfields := decrement_items_fields _ hdec
    have hok : update_order_status db oid user OrderStatus.ACCEPTED =
        .ok (dbd.set_order_status order.id OrderStatus.ACCEPTED,
             { order with status := OrderStatus.ACCEPTED }) := by
      rw [hupd]
      unfold apply_order_transition
      rw [if_pos ⟨rfl, hst⟩, hitems, hdec]
      simp [hst]
    refine ⟨dbd.set_order_status order.id OrderStatus.ACCEPTED, hok, ?_, ?_⟩
    · intro pid
      have hpp : (dbd.set_order_status order.id OrderStatus.ACCEPTED).get_product pid =
          dbd.get_product pid :=
        get_product_congr (set_order_status_products dbd order.id OrderStatus.ACCEPTED) pid
      rw [hpp, decrement_items_stock _ hdec pid]
    · have hords : dbd.get_order oid = some order := by
        rw [get_order_congr hfields.2.2.1 oid]
        exact horder
      rw [hoid, get_order_set_order_status, hords]
      simp [hoid]

/-- Witness for C2 at a concrete state: accepting a pending three-unit order
against a five-unit stock succeeds and leaves two units. -/
theorem claim_C2_witness :
    ∃ db1, update_order_status db_pending 1 sample_supplier_user OrderStatus.ACCEPTED =
        .ok (db1, { sample_order with status := OrderStatus.ACCEPTED }) ∧
      (∀ pid, db1.get_product pid = (db_pending.get_product pid).map
        (fun p => { p with stock_quantity :=
          (p.stock_quantity - sum_qty (db_pending.items_of 1) pid) })) ∧
      db1.get_order 1 = some { sample_order with status := OrderStatus.ACCEPTED } :=
  (claim_C2_acceptance_hard_check db_pending 1 sample_supplier_user sample_order
    (by decide) (by decide) (Or.inl (by decide)) (by decide) (by decide) (by decide)).2
    (by decide)

/-- Counterexample to claim C3 as stated: in `db_completed` order 1 is in
the terminal COMPLETED state, so the spec's state machine admits no
transition at all, yet a supplier-side actor's ACCEPTED request succeeds
(no InvalidTransition error) and the stored status is overwritten. -/
theorem claim_C3_counterexample :
    update_order_status db_completed 1 sample_supplier_user OrderStatus.ACCEPTED =
      .ok (db_completed.set_order_status 1 OrderStatus.ACCEPTED,
           { id := 1, consumer_id := 2, supplier_id := 1, status := OrderStatus.ACCEPTED,
             total_amount := 300 }) ∧
    (commit_state db_completed
        (update_order_status db_completed 1 sample_supplier_user OrderStatus.ACCEPTED)).get_order 1 =
      some { id := 1, consumer_id := 2, supplier_id := 1, status := OrderStatus.ACCEPTED,
             total_amount := 300 } := by
  exact ⟨rfl, rfl⟩

/-- Claim C3 amended: the code enforces no order state machine for
supplier-side actors — on their own order, any requested status outside the
PENDING → ACCEPTED decrement path succeeds unconditionally and overwrites
the stored status.  Only the consumer cancellation path is state-checked:
cancelling an own order that is in neither PENDING nor ACCEPTED fails with
the 400 wrong-state error. -/
theorem claim_C3_amended (db : DB) (oid : Int) (user : User) (new_status : OrderStatus)
    (order : Order) (horder : db.get_order oid = some order) :
    ((user.role = UserRole.SUPPLIER_OWNER ∨ user.role = UserRole.SUPPLIER_MANAGER ∨
        user.role = UserRole.SUPPLIER_SALES) →
      user.company_id = order.supplier_id →
      ¬ (new_status = OrderStatus.ACCEPTED ∧ order.status = OrderStatus.PENDING) →
      ∃ db1, update_order_status db oid user new_status =
          .ok (db1, { order with status := new_status }) ∧
        db1.get_order oid = some { order with status := new_status }) ∧
    (user.role = UserRole.CONSUMER →
      user.company_id = order.consumer_id →
      new_status = OrderStatus.CANCELLED →
      ¬ (order.status = OrderStatus.PENDING ∨ order.status = OrderStatus.ACCEPTED) →
      update_order_status db oid user new_status =
        .error (.badRequest "Order cannot be cancelled in current state")) := by
  have hoid : order.id = oid := get_order_id horder
  constructor
  · intro hrole hcomp hnd
    have hupd := @update_order_status_supplier db oid user new_status order horder hrole hcomp
    rw [hupd]
    unfold apply_order_transition
    rw [if_neg hnd]
    refine ⟨_, rfl, ?_⟩
    by_cases hc2 : (new_status = OrderStatus.CANCELLED ∨ new_status = OrderStatus.REJECTED) ∧
        order.status = OrderStatus.ACCEPTED
    · rw [if_pos hc2]
      have hf := (restore_items_fields (db.items_of order.id) db).2.2.1
      have hords : (restore_inventory db order).get_order oid = some order := by
        show (restore_items db (db.items_of order.id)).get_order oid = some order
        rw [get_order_congr hf oid]
        exact horder
      rw [get_order_set_order_status, hords]
      simp
    · rw [if_neg hc2]
      rw [get_order_set_order_status, horder]
      simp
  · intro hrole hcomp hcan hnstate
    simp only [update_order_status, horder]
    rw [if_pos hrole, if_neg (by simp [hcomp]), if_neg (by simp [hcan]), if_pos hnstate]

/-- Witness for the amended C3: a supplier-side COMPLETED → ACCEPTED request
on the concrete state succeeds and overwrites the status. -/
theorem claim_C3_amended_witness :
    ∃ db1, update_order_status db_completed 1 sample_supplier_user OrderStatus.ACCEPTED =
        .ok (db1, { id := 1, consumer_id := 2, supplier_id := 1,
                    status := OrderStatus.ACCEPTED, total_amount := 300 }) ∧
      db1.get_order 1 = some { id := 1, consumer_id := 2, supplier_id := 1,
                               status := OrderStatus.ACCEPTED, total_amount := 300 } :=
  (claim_C3_amended db_completed 1 sample_supplier_user OrderStatus.ACCEPTED
    { id := 1, consumer_id := 2, supplier_id := 1, status := OrderStatus.COMPLETED,
      total_amount := 300 }
    (by decide)).1 (Or.inl (by decide)) (by decide) (by decide)

/-- Counterexample to claim C4 as stated: `sample_consumer_user` has an
empty approved supplier set in `db_nolink`, and requests the catalog with
the explicit supplier filter 1 — which is outside the (empty) approved set.
The claim demands a Forbidden failure, but the code short-circuits on the
empty approved set and returns an empty catalog successfully. -/
theorem claim_C4_counterexample :
    get_catalog_for_consumer db_nolink sample_consumer_user (some 1) = .ok [] := by
  rfl

/-- Claim C4 amended: an explicit supplier filter outside the approved set
fails with Forbidden only when the approved set is nonempty (and the filter
id is nonzero — a 0 filter is falsy in Python and ignored); when the
consumer's approved supplier set is empty, the call instead returns an
empty list without error. -/
theorem claim_C4_amended (db : DB) (user : User) (sid : Int) :
    (get_approved_supplier_ids db user.company_id = [] →
      get_catalog_for_consumer db user (some sid) = .ok []) ∧
    (get_approved_supplier_ids db user.company_id ≠ [] → sid ≠ 0 →
      sid ∉ get_approved_supplier_ids db user.company_id →
      get_catalog_for_consumer db user (some sid) =
        .error (.forbidden "You do not have an approved link with this supplier")) := by
  constructor
  · intro he
    simp only [get_catalog_for_consumer, he]
    rfl
  · intro hne h0 hnotin
    have hE : ¬ ((get_approved_supplier_ids db user.company_id).isEmpty = true) := by
      simp [hne]
    have h0b : ¬ ((sid == 0) = true) := by simp [h0]
    have hcon : ¬ ((get_approved_supplier_ids db user.company_id).contains sid = true) := by
      simp [List.elem_iff, hnotin]
    simp only [get_catalog_for_consumer]
    rw [if_neg hE]
    rw [if_neg h0b, if_neg hcon]

/-- Witness for the amended C4: with approved set `[1]`, the out-of-set
filter 5 is rejected with Forbidden. -/
theorem claim_C4_amended_witness :
    get_catalog_for_consumer db_pending sample_consumer_user (some 5) =
      .error (.forbidden "You do not have an approved link with this supplier") :=
  (claim_C4_amended db_pending sample_consumer_user 5).2 (by decide) (by decide) (by decide)

/-- Claim C5: accepting a PENDING order (stock decrement) and then, by a
supplier-side actor, cancelling or rejecting it (stock restore) returns
every product lookup — in particular every involved product's stock — to
exactly its pre-acceptance value, for whatever multiset of items the order
carries. -/
theorem claim_C5_accept_then_cancel_round_trip (db : DB) (oid : Int) (user : User)
    (new_status : OrderStatus) (order : Order) (db1 : DB) (o1 : Order)
    (horder : db.get_order oid = some order)
    (hst : order.status = OrderStatus.PENDING)
    (hrole : user.role = UserRole.SUPPLIER_OWNER ∨ user.role = UserRole.SUPPLIER_MANAGER ∨
      user.role = UserRole.SUPPLIER_SALES)
    (hcomp : user.company_id = order.supplier_id)
    (hcr : new_status = OrderStatus.CANCELLED ∨ new_status = OrderStatus.REJECTED)
    (haccept : update_order_status db oid user OrderStatus.ACCEPTED = .ok (db1, o1)) :
    ∃ db2 o2, update_order_status db1 oid user new_status = .ok (db2, o2) ∧
      ∀ pid : Int, db2.get_product pid = db.get_product pid := by
  have hoid : order.id = oid := get_order_id horder
  have hupd := @update_order_status_supplier db oid user OrderStatus.ACCEPTED order
    horder hrole hcomp
  rw [hupd] at haccept
  cases hdec : decrement_inventory db order with
  | error e =>
    exfalso
    unfold apply_order_transition at haccept
    rw [if_pos ⟨rfl, hst⟩, hdec] at haccept
    exact Except.noConfusion haccept
  | ok dbd =>
    have hacc2 : apply_order_transition db order OrderStatus.ACCEPTED =
        .ok (dbd.set_order_status order.id OrderStatus.ACCEPTED,
             { order with status := OrderStatus.ACCEPTED }) := by
      unfold apply_order_transition
      rw [if_pos ⟨rfl, hst⟩, hdec]
      simp [hst]
    rw [hacc2] at haccept
    injection haccept with hpair
    injection hpair with h1 h2
    have hdb1 : db1 = dbd.set_order_status order.id OrderStatus.ACCEPTED := h1.symm
    have hdec' : decrement_items db (db.items_of order.id) = .ok dbd := hdec
    have hfields := decrement_items_fields _ hdec'
    have horder1 : db1.get_order oid = some { order with status := OrderStatus.ACCEPTED } := by
      rw [hdb1, hoid, get_order_set_order_status]
      have hdo : dbd.get_order oid = some order := by
        rw [get_order_congr hfields.2.2.1 oid]
        exact horder
      rw [hdo]
      simp [hoid]
    have hupd2 := @update_order_status_supplier db1 oid user new_status
      ({ order with status := OrderStatus.ACCEPTED }) horder1 hrole hcomp
    have hnd2 : ¬ (new_status = OrderStatus.ACCEPTED ∧
        ({ order with status := OrderStatus.ACCEPTED } : Order).status = OrderStatus.PENDING) := by
      simp
    have hc2 : (new_status = OrderStatus.CANCELLED ∨ new_status = OrderStatus.REJECTED) ∧
        ({ order with status := OrderStatus.ACCEPTED } : Order).status = OrderStatus.ACCEPTED :=
      ⟨hcr, rfl⟩
    rw [hupd2]
    unfold apply_order_transition
    rw [if_neg hnd2]
    refine ⟨_, _, rfl, ?_⟩
    intro pid
    rw [if_pos hc2]
    have e1 := get_product_congr (set_order_status_products
      (restore_inventory db1 ({ order with status := OrderStatus.ACCEPTED }))
      ({ order with status := OrderStatus.ACCEPTED } : Order).id new_status) pid
    rw [e1]
    have hoi : db1.order_items = db.order_items := by
      rw [hdb1]
      exact hfields.2.2.2.1
    have hits : db1.items_of ({ order with status := OrderStatus.ACCEPTED } : Order).id =
        db.items_of oid := by
      show db1.items_of order.id = db.items_of oid
      rw [hoid]
      exact items_of_congr hoi oid
    have e2 : (restore_inventory db1 ({ order with status := OrderStatus.ACCEPTED })).get_product pid =
        (db1.get_product pid).map (fun p =>
          { p with stock_quantity := p.stock_quantity + sum_qty (db.items_of oid) pid }) := by
      show (restore_items db1
        (db1.items_of ({ order with status := OrderStatus.ACCEPTED } : Order).id)).get_product pid = _
      rw [hits, restore_items_stock]
    rw [e2]
    have e3 : db1.get_product pid = (db.get_product pid).map
        (fun p => { p with stock_quantity := p.stock_quantity - sum_qty (db.items_of oid) pid }) := by
      have h4 : db1.get_product pid = dbd.get_product pid := by
        rw [hdb1]
        exact get_product_congr (set_order_status_products dbd order.id OrderStatus.ACCEPTED) pid
      rw [h4, decrement_items_stock _ hdec' pid, hoid]
    rw [e3]
    cases db.get_product pid with
    | none => rfl
    | some p =>
      simp [Product.mk.injEq]

/-- Witness for C5: accept then reject the concrete pending order; the
five-unit stock is restored exactly. -/
theorem claim_C5_witness :
    ∃ db2 o2, update_order_status
        (commit_state db_pending (update_order_status db_pending 1 sample_supplier_user
          OrderStatus.ACCEPTED)) 1 sample_supplier_user OrderStatus.REJECTED = .ok (db2, o2) ∧
      ∀ pid : Int, db2.get_product pid = db_pending.get_product pid :=
  claim_C5_accept_then_cancel_round_trip db_pending 1 sample_supplier_user
    OrderStatus.REJECTED sample_order
    (commit_state db_pending (update_order_status db_pending 1 sample_supplier_user
      OrderStatus.ACCEPTED))
    { sample_order with status := OrderStatus.ACCEPTED }
    (by decide) (by decide) (Or.inl (by decide)) (by decide) (Or.inr (by decide)) (by rfl)

/-- Claim C6: with no explicit supplier filter, the catalog returned to a
consumer contains a product row exactly when the row is in the products
table, some APPROVED link ties its supplier to the consumer's company, the
product is active, and its stock is positive.  In particular no product of
a supplier without an APPROVED link to the consumer ever appears. -/
theorem claim_C6_catalog_membership (db : DB) (user : User) (ps : List Product)
    (h : get_catalog_for_consumer db user none = .ok ps) :
    ∀ p : Product, p ∈ ps ↔ (p ∈ db.products ∧
      (∃ l ∈ db.links, l.consumer_id = user.company_id ∧ l.supplier_id = p.supplier_id ∧
        l.status = LinkStatus.APPROVED) ∧
      p.is_active = true ∧ 0 < p.stock_quantity) := by
  intro p
  have happ : ((get_approved_supplier_ids db user.company_id).contains p.supplier_id = true) ↔
      (∃ l ∈ db.links, l.consumer_id = user.company_id ∧ l.supplier_id = p.supplier_id ∧
        l.status = LinkStatus.APPROVED) := by
    rw [List.elem_iff]
    simp only [get_approved_supplier_ids, List.mem_map, List.mem_filter,
      Bool.and_eq_true, beq_iff_eq]
    constructor
    · rintro ⟨l, ⟨hl, hc, hs⟩, hsup⟩
      exact ⟨l, hl, hc, hsup, hs⟩
    · rintro ⟨l, hl, hc, hsup, hs⟩
      exact ⟨l, ⟨hl, hc, hs⟩, hsup⟩
  by_cases hE : (get_approved_supplier_ids db user.company_id).isEmpty = true
  · have hps : ps = [] := by
      simp only [get_catalog_for_consumer, if_pos hE] at h
      injection h with h1
      exact h1.symm
    subst hps
    simp only [List.not_mem_nil, false_iff]
    rintro ⟨_, hex, _⟩
    have hin := happ.mpr hex
    rw [List.isEmpty_iff.mp hE] at hin
    simp at hin
  · have hps : ps = db.products.filter (fun q =>
        (get_approved_supplier_ids db user.company_id).contains q.supplier_id &&
        q.is_active && decide (0 < q.stock_quantity)) := by
      simp only [get_catalog_for_consumer, if_neg hE] at h
      injection h with h1
      exact h1.symm
    subst hps
    rw [List.mem_filter]
    simp only [Bool.and_eq_true, decide_eq_true_eq]
    constructor
    · rintro ⟨hmem, ⟨hcon, hact⟩, hstk⟩
      exact ⟨hmem, happ.mp hcon, hact, hstk⟩
    · rintro ⟨hmem, hex, hact, hstk⟩
      exact ⟨hmem, ⟨happ.mpr hex, hact⟩, hstk⟩

/-- Witness for C6 on the concrete linked state: the catalog is exactly the
one active in-stock product of the approved supplier, and the membership
equivalence holds for it. -/
theorem claim_C6_witness :
    sample_product ∈ [sample_product] ∧
    (sample_product ∈ db_pending.products ∧
      (∃ l ∈ db_pending.links, l.consumer_id = sample_consumer_user.company_id ∧
        l.supplier_id = sample_product.supplier_id ∧ l.status = LinkStatus.APPROVED) ∧
      sample_product.is_active = true ∧ 0 < sample_product.stock_quantity) :=
  ⟨by decide,
   (claim_C6_catalog_membership db_pending sample_consumer_user [sample_product]
     (by rfl) sample_product).mp (by decide)⟩

/-- Claim C7: a successful `block_consumer` call commits exactly three
effects in one state: the new BlacklistEntry is appended (and nothing else
changes in that table), every order of the pair in PENDING/ACCEPTED/
IN_DELIVERY is set to REJECTED while all other orders pass through
unchanged (same row count, no insertion or deletion), every link row of the
pair is deleted and all others kept, and the `products` table — hence every
stock — is untouched (no inventory restore). -/
theorem claim_C7_block_consumer_effects (db : DB) (sid : Int) (bd : BlacklistCreate)
    (user : User) (c : Company)
    (hcons : db.get_company bd.consumer_id = some c)
    (hnb : ∀ b ∈ db.blacklist, ¬ (b.supplier_id = sid ∧ b.consumer_id = bd.consumer_id)) :
    ∃ entry db', block_consumer db sid bd user = .ok (db', entry) ∧
      entry.supplier_id = sid ∧ entry.consumer_id = bd.consumer_id ∧
      db'.blacklist = db.blacklist ++ [entry] ∧
      db'.products = db.products ∧
      db'.companies = db.companies ∧
      db'.order_items = db.order_items ∧
      db'.orders.length = db.orders.length ∧
      (∀ o ∈ db.orders,
        (o.supplier_id = sid ∧ o.consumer_id = bd.consumer_id ∧
          (o.status = OrderStatus.PENDING ∨ o.status = OrderStatus.ACCEPTED ∨
           o.status = OrderStatus.IN_DELIVERY)) →
          { o with status := OrderStatus.REJECTED } ∈ db'.orders) ∧
      (∀ o ∈ db.orders,
        ¬ (o.supplier_id = sid ∧ o.consumer_id = bd.consumer_id ∧
          (o.status = OrderStatus.PENDING ∨ o.status = OrderStatus.ACCEPTED ∨
           o.status = OrderStatus.IN_DELIVERY)) → o ∈ db'.orders) ∧
      (∀ l : Link, l ∈ db'.links ↔ (l ∈ db.links ∧
        ¬ (l.supplier_id = sid ∧ l.consumer_id = bd.consumer_id))) := by
  have hfind : db.blacklist.find? (fun b =>
      b.supplier_id == sid && b.consumer_id == bd.consumer_id) = none := by
    rw [List.find?_eq_none]
    intro b hb
    have hn := hnb b hb
    simp only [Bool.and_eq_true, beq_iff_eq, not_and]
    intro h1 h2
    exact hn ⟨h1, h2⟩
  have hres : block_consumer db sid bd user = .ok
      ({ db with
           blacklist := db.blacklist ++
             [{ id := db.next_blacklist_id, supplier_id := sid,
                consumer_id := bd.consumer_id, blocked_by := user.id, reason := bd.reason }]
           orders := db.orders.map (fun o =>
             if o.supplier_id == sid && o.consumer_id == bd.consumer_id &&
                 (o.status == OrderStatus.PENDING || o.status == OrderStatus.ACCEPTED ||
                  o.status == OrderStatus.IN_DELIVERY) then
               { o with status := OrderStatus.REJECTED }
             else o)
           links := db.links.filter (fun l =>
             ! (l.supplier_id == sid && l.consumer_id == bd.consumer_id)) },
       { id := db.next_blacklist_id, supplier_id := sid, consumer_id := bd.consumer_id,
         blocked_by := user.id, reason := bd.reason }) := by
    simp only [block_consumer, hcons, hfind]
  refine ⟨_, _, hres, rfl, rfl, rfl, rfl, rfl, rfl, List.length_map _ _, ?_, ?_, ?_⟩
  · rintro o ho ⟨h1, h2, h3⟩
    refine List.mem_map.mpr ⟨o, ho, ?_⟩
    have hcond : (o.supplier_id == sid && o.consumer_id == bd.consumer_id &&
        (o.status == OrderStatus.PENDING || o.status == OrderStatus.ACCEPTED ||
         o.status == OrderStatus.IN_DELIVERY)) = true := by
      rcases h3 with h3 | h3 | h3 <;> simp [h1, h2, h3]
    rw [if_pos hcond]
  · intro o ho hnot
    refine List.mem_map.mpr ⟨o, ho, ?_⟩
    cases hc : (o.supplier_id == sid && o.consumer_id == bd.consumer_id &&
        (o.status == OrderStatus.PENDING || o.status == OrderStatus.ACCEPTED ||
         o.status == OrderStatus.IN_DELIVERY)) with
    | true =>
      exfalso
      apply hnot
      simp only [Bool.and_eq_true, Bool.or_eq_true, beq_iff_eq] at hc
      refine ⟨hc.1.1, hc.1.2, ?_⟩
      rcases hc.2 with (h | h) | h
      · exact Or.inl h
      · exact Or.inr (Or.inl h)
      · exact Or.inr (Or.inr h)
    | false =>
      rw [if_neg (by simp [hc])]
  · intro l
    rw [List.mem_filter]
    constructor
    · rintro ⟨hl, hp⟩
      refine ⟨hl, ?_⟩
      rintro ⟨ha, hb⟩
      simp [ha, hb] at hp
    · rintro ⟨hl, hn⟩
      refine ⟨hl, ?_⟩
      cases hc : (l.supplier_id == sid && l.consumer_id == bd.consumer_id) with
      | true =>
        exfalso
        simp only [Bool.and_eq_true, beq_iff_eq] at hc
        exact hn ⟨hc.1, hc.2⟩
      | false =>
        simp [hc]

/-- Witness for C7: blocking consumer company 2 in the concrete linked
state succeeds and leaves the products table untouched. -/
theorem claim_C7_witness :
    ∃ entry db', block_consumer db_pending 1 { consumer_id := 2, reason := "spam" }
        sample_supplier_user = .ok (db', entry) ∧ db'.products = db_pending.products := by
  obtain ⟨entry, db', hres, _, _, _, hprod, _⟩ :=
    claim_C7_block_consumer_effects db_pending 1 { consumer_id := 2, reason := "spam" }
      sample_supplier_user { id := 2, type := CompanyType.CONSUMER, is_active := true }
      (by decide) (by decide)
  exact ⟨entry, db', hres, hprod⟩

/-- Claim C9: the `create_link_request` contract — Forbidden when the
requesting company is absent or not CONSUMER-typed; NotFound when the
target company is absent; the invalid-target 400 when the target is not
SUPPLIER-typed; the duplicate-link 400 when any link row for the ordered
pair exists, whatever its status; and on success exactly one new PENDING
link row for the pair is appended, everything else untouched. -/
theorem claim_C9_request_link_contract (db : DB) (user : User) (ld : LinkCreate) :
    (((db.get_company user.company_id).map (fun c => c.type) ≠ some CompanyType.CONSUMER) →
      create_link_request db user ld =
        .error (.forbidden "Only Consumer companies can request links")) ∧
    ((∃ c, db.get_company user.company_id = some c ∧ c.type = CompanyType.CONSUMER) →
      db.get_company ld.supplier_id = none →
      create_link_request db user ld = .error (.notFound "Supplier company not found")) ∧
    ((∃ c, db.get_company user.company_id = some c ∧ c.type = CompanyType.CONSUMER) →
      (∃ s, db.get_company ld.supplier_id = some s ∧ s.type ≠ CompanyType.SUPPLIER) →
      create_link_request db user ld = .error (.badRequest "Target company is not a Supplier")) ∧
    ((∃ c, db.get_company user.company_id = some c ∧ c.type = CompanyType.CONSUMER) →
      (∃ s, db.get_company ld.supplier_id = some s ∧ s.type = CompanyType.SUPPLIER) →
      (∃ l ∈ db.links, l.supplier_id = ld.supplier_id ∧ l.consumer_id = user.company_id) →
      create_link_request db user ld = .error (.badRequest "Link request already exists")) ∧
    ((∃ c, db.get_company user.company_id = some c ∧ c.type = CompanyType.CONSUMER) →
      (∃ s, db.get_company ld.supplier_id = some s ∧ s.type = CompanyType.SUPPLIER) →
      (∀ l ∈ db.links, ¬ (l.supplier_id = ld.supplier_id ∧ l.consumer_id = user.company_id)) →
      create_link_request db user ld = .ok
        ({ db with links := db.links ++
             [{ id := db.next_link_id,
                supplier_id := ld.supplier_id, consumer_id := user.company_id,
                status := LinkStatus.PENDING }] },
         { id := db.next_link_id, supplier_id := ld.supplier_id,
           consumer_id := user.company_id, status := LinkStatus.PENDING })) := by
  refine ⟨?_, ?_, ?_, ?_, ?_⟩
  · intro hne
    cases hg : db.get_company user.company_id with
    | none =>
      simp only [create_link_request, hg]
    | some c =>
      rw [hg] at hne
      have hty : c.type ≠ CompanyType.CONSUMER := by
        simpa using hne
      simp only [create_link_request, hg]
      rw [if_pos hty]
  · rintro ⟨c, hgc, hty⟩ hnone
    simp only [create_link_request, hgc, hnone]
    rw [if_neg (by simp [hty])]
  · rintro ⟨c, hgc, hty⟩ ⟨s, hgs, hsty⟩
    simp only [create_link_request, hgc, hgs]
    rw [if_neg (by simp [hty]), if_pos hsty]
  · rintro ⟨c, hgc, hty⟩ ⟨s, hgs, hsty⟩ ⟨l, hl, h1, h2⟩
    cases hf : db.links.find? (fun l2 =>
        l2.supplier_id == ld.supplier_id && l2.consumer_id == user.company_id) with
    | none =>
      exfalso
      have := List.find?_eq_none.mp hf l hl
      simp [h1, h2] at this
    | some l2 =>
      simp only [create_link_request, hgc, hgs, hf]
      rw [if_neg (by simp [hty]), if_neg (by simp [hsty])]
  · rintro ⟨c, hgc, hty⟩ ⟨s, hgs, hsty⟩ hno
    have hf : db.links.find? (fun l2 =>
        l2.supplier_id == ld.supplier_id && l2.consumer_id == user.company_id) = none := by
      rw [List.find?_eq_none]
      intro l hl
      have hn := hno l hl
      simp only [Bool.and_eq_true, beq_iff_eq, not_and]
      intro h1 h2
      exact hn ⟨h1, h2⟩
    simp only [create_link_request, hgc, hgs, hf]
    rw [if_neg (by simp [hty]), if_neg (by simp [hsty])]

/-- Witness for C9: the concrete no-link state accepts a fresh link request
from the consumer and appends exactly one PENDING row. -/
theorem claim_C9_witness :
    create_link_request db_nolink sample_consumer_user { supplier_id := 1 } = .ok
      ({ db_nolink with links :=
           [{ id := 1, supplier_id := 1, consumer_id := 2,
              status := LinkStatus.PENDING }] },
       { id := 1, supplier_id := 1, consumer_id := 2, status := LinkStatus.PENDING }) :=
  (claim_C9_request_link_contract db_nolink sample_consumer_user { supplier_id := 1 }).2.2.2.2
    ⟨{ id := 2, type := CompanyType.CONSUMER, is_active := true }, by decide, by decide⟩
    ⟨{ id := 1, type := CompanyType.SUPPLIER, is_active := true }, by decide, by decide⟩
    (by decide)

/-- Claim C10: cancelling or rejecting an ACCEPTED order by a supplier-side
actor always succeeds, with no requirement that the items' products still
exist: the committed state increments each surviving product's stock by the
quantity held against it and leaves missing products missing (the
`Option.map` is the identity on `none`), raising no error. -/
theorem claim_C10_restore_skips_missing (db : DB) (oid : Int) (user : User)
    (new_status : OrderStatus) (order : Order)
    (horder : db.get_order oid = some order)
    (hst : order.status = OrderStatus.ACCEPTED)
    (hrole : user.role = UserRole.SUPPLIER_OWNER ∨ user.role = UserRole.SUPPLIER_MANAGER ∨
      user.role = UserRole.SUPPLIER_SALES)
    (hcomp : user.company_id = order.supplier_id)
    (hcr : new_status = OrderStatus.CANCELLED ∨ new_status = OrderStatus.REJECTED) :
    ∃ db2 o2, update_order_status db oid user new_status = .ok (db2, o2) ∧
      (∀ pid : Int, db2.get_product pid = (db.get_product pid).map
        (fun p => { p with stock_quantity :=
          (p.stock_quantity + sum_qty (db.items_of oid) pid) })) := by
  have hoid : order.id = oid := get_order_id horder
  have hupd := @update_order_status_supplier db oid user new_status order horder hrole hcomp
  rw [hupd]
  unfold apply_order_transition
  have hnd : ¬ (new_status = OrderStatus.ACCEPTED ∧ order.status = OrderStatus.PENDING) := by
    rcases hcr with h | h <;> simp [h]
  rw [if_neg hnd]
  refine ⟨_, _, rfl, ?_⟩
  intro pid
  have hc2 : (new_status = OrderStatus.CANCELLED ∨ new_status = OrderStatus.REJECTED) ∧
      order.status = OrderStatus.ACCEPTED := ⟨hcr, hst⟩
  rw [if_pos hc2]
  rw [get_product_congr (set_order_status_products
    (restore_inventory db order) order.id new_status) pid]
  show (restore_items db (db.items_of order.id)).get_product pid = _
  rw [restore_items_stock, hoid]

/-- Witness for C10: cancelling the concrete ACCEPTED order whose second
item references the missing product 99 succeeds; product 1 gains its three
units back and product 99 stays absent. -/
theorem claim_C10_witness :
    ∃ db2 o2, update_order_status db_accepted_missing 1 sample_supplier_user
        OrderStatus.CANCELLED = .ok (db2, o2) ∧
      (∀ pid : Int, db2.get_product pid = (db_accepted_missing.get_product pid).map
        (fun p => { p with stock_quantity :=
          (p.stock_quantity + sum_qty (db_accepted_missing.items_of 1) pid) })) :=
  claim_C10_restore_skips_missing db_accepted_missing 1 sample_supplier_user
    OrderStatus.CANCELLED
    { id := 1, consumer_id := 2, supplier_id := 1, status := OrderStatus.ACCEPTED,
      total_amount := 400 }
    (by decide) (by decide) (Or.inl (by decide)) (by decide) (Or.inl (by decide))

/-- Claim C8: starting from a state where every product stock is
nonnegative (and, as the schema guarantees for every stored item, item
quantities are positive), every sequence of engine operations — order
creation, acceptance, cancellation/rejection with restore — leaves every
product's stock nonnegative. -/
theorem claim_C8_stock_nonnegative_invariant (db : DB) (ops : List EngineOp)
    (hstock : ∀ p ∈ db.products, 0 ≤ p.stock_quantity)
    (hitems : ∀ it ∈ db.order_items, 0 < it.quantity) :
    ∀ p ∈ (run_engine_ops db ops).products, 0 ≤ p.stock_quantity :=
  (run_engine_ops_good ops db ⟨hstock, hitems⟩).1

/-- Witness for C8: after accepting the concrete pending order the single
product row holds two units, and the invariant instance for that row
follows from the theorem. -/
theorem claim_C8_witness :
    (0 : Int) ≤ ({ sample_product with stock_quantity := 2 } : Product).stock_quantity :=
  claim_C8_stock_nonnegative_invariant db_pending
    [EngineOp.transition 1 sample_supplier_user OrderStatus.ACCEPTED]
    (by decide) (by decide) { sample_product with stock_quantity := 2 } (by decide)
